import Mathlib

/-!
Shallow embedding of `src/EbayScraper.py`.

Python strings are Lean `String`s, Python floats are modelled as exact
rationals `ℚ`, Python `None` as `Option.none`, and raised exceptions as
`Except PyError` results.  The network fetch (`_get_html`) is abstracted:
the two lists of raw texts that `_parse_prices` extracts from the document
tree (`soup.find_all(class_=...).get_text(strip=True)`) are taken as
inputs of the pure pipeline.
-/

namespace EbayScraper

/-- The Python exceptions this program can raise: `KeyError` from a dict
subscript (`COUNTRY_DICT[country]`, `CONDITION_DICT[condition]`) and
`ValueError` from the explicit `raise` in `get_item_info`. -/
inductive PyError where
  | keyError : String → PyError
  | valueError : String → PyError
deriving DecidableEq

/-- `COUNTRY_DICT` from the source (lines 6–26), as an insertion-ordered
association list. -/
def COUNTRY_DICT : List (String × String) :=
  [ ("au", ".com.au"), ("at", ".at"), ("be", ".be"), ("ca", ".ca"),
    ("ch", ".ch"), ("de", ".de"), ("es", ".es"), ("fr", ".fr"),
    ("hk", ".com.hk"), ("ie", ".ie"), ("it", ".it"), ("my", ".com.my"),
    ("nl", ".nl"), ("nz", ".co.nz"), ("ph", ".ph"), ("pl", ".pl"),
    ("sg", ".com.sg"), ("uk", ".co.uk"), ("us", ".com") ]

/-- `CONDITION_DICT` from the source (lines 28–34). -/
def CONDITION_DICT : List (String × String) :=
  [ ("all", ""), ("new", "&LH_ItemCondition=1000"),
    ("opened", "&LH_ItemCondition=1500"),
    ("refurbished", "&LH_ItemCondition=2500"),
    ("used", "&LH_ItemCondition=3000") ]

/-- Python `str.lower()`, lowering each character (ASCII range, which
covers every key used). -/
def pyLower (s : String) : String := String.mk (s.data.map Char.toLower)

/-- Numeric value of a list of decimal digit characters (most significant
first), as `int(...)` would read them. -/
def natOfDigits (ds : List Char) : ℕ :=
  ds.foldl (fun a c => 10 * a + (c.toNat - 48)) 0

/-- Value of a regex match of `\d+(\.\d+)?` with integer-part digits
`intPart` and fractional-part digits `fracPart` (empty when the optional
group did not match), as `float(...)` reads the matched text. -/
def numValue (intPart fracPart : List Char) : ℚ :=
  (natOfDigits intPart : ℚ) + (natOfDigits fracPart : ℚ) / (10 : ℚ) ^ fracPart.length

/-- `re.search(r'(\d+(\.\d+)?)', ·)` followed by `float` on the matched
text: scan left to right for the first digit; the match is the maximal
digit run from there, optionally extended by a period and a further
non-empty maximal digit run. -/
def searchNumber : List Char → Option ℚ
  | [] => none
  | c :: cs =>
    if c.isDigit then
      let ds := List.takeWhile Char.isDigit (c :: cs)
      match List.dropWhile Char.isDigit (c :: cs) with
      | '.' :: r => some (numValue ds (List.takeWhile Char.isDigit r))
      | _ => some (numValue ds [])
    else
      searchNumber cs

/-- `string.replace(',', '.')`: both arguments are single characters, so
this is a character map. -/
def commaToPeriod (s : String) : String :=
  String.mk (s.data.map (fun c => if c = ',' then '.' else c))

/-- `_parse_raw_price` (source lines 113–124). -/
def parse_raw_price (s : String) : Option ℚ :=
  searchNumber (commaToPeriod s).data

/-- `_parse_prices` (source lines 95–111), taking the two raw text lists
extracted from the document as input.  Python truthiness of a string is
non-emptiness. -/
def parse_prices (raw_price_list raw_shipping_list : List String) :
    List (Option ℚ) × List (Option ℚ) :=
  ( (raw_price_list.filter (fun r => decide (r ≠ ""))).map parse_raw_price,
    raw_shipping_list.map (fun r => if r = "" then some 0 else parse_raw_price r) )

/-- `_average` (source lines 126–141). -/
def average (number_list : List (Option ℚ)) : ℚ :=
  if number_list ≠ [] then
    let valid_numbers := number_list.filterMap id
    if valid_numbers ≠ [] then
      valid_numbers.sum / (valid_numbers.length : ℚ)
    else 0
  else 0

/-- Round half to even to an integer (Python's `round` tie rule). -/
def roundHalfEven (q : ℚ) : ℤ :=
  if q - ⌊q⌋ < 1 / 2 then ⌊q⌋
  else if q - ⌊q⌋ > 1 / 2 then ⌊q⌋ + 1
  else if ⌊q⌋ % 2 = 0 then ⌊q⌋
  else ⌊q⌋ + 1

/-- Python `round(x, 2)`, on the exact rational model. -/
def pyRound2 (q : ℚ) : ℚ := (roundHalfEven (q * 100) : ℚ) / 100

/-- UTF-8 encoding of one code point, as byte values. -/
def utf8Bytes (c : Char) : List ℕ :=
  let n := c.toNat
  if n < 128 then [n]
  else if n < 2048 then [192 + n / 64, 128 + n % 64]
  else if n < 65536 then [224 + n / 4096, 128 + (n / 64) % 64, 128 + n % 64]
  else [240 + n / 262144, 128 + (n / 4096) % 64, 128 + (n / 64) % 64, 128 + n % 64]

/-- Uppercase hex digit for a value below 16. -/
def hexDigit (n : ℕ) : Char :=
  if n < 10 then Char.ofNat (48 + n) else Char.ofNat (55 + n)

/-- One byte of `urllib.parse.quote` output: unreserved bytes
(ALPHA / DIGIT / `_` `.` `-` `~`) and the default safe byte `/` pass
through; every other byte becomes `%XX` in uppercase hex. -/
def quoteByte (b : ℕ) : List Char :=
  if (65 ≤ b ∧ b ≤ 90) ∨ (97 ≤ b ∧ b ≤ 122) ∨ (48 ≤ b ∧ b ≤ 57) ∨
      b = 95 ∨ b = 46 ∨ b = 45 ∨ b = 126 ∨ b = 47 then
    [Char.ofNat b]
  else
    ['%', hexDigit (b / 16), hexDigit (b % 16)]

/-- `urllib.parse.quote(query)` with the default `safe='/'`. -/
def pyQuote (s : String) : String :=
  String.mk (List.flatten (List.map quoteByte (List.flatten (s.data.map utf8Bytes))))

/-- `.replace('%20', '+')`: left-to-right, non-overlapping. -/
def replaceP20 : List Char → List Char
  | '%' :: '2' :: '0' :: rest => '+' :: replaceP20 rest
  | c :: rest => c :: replaceP20 rest
  | [] => []

/-- `_construct_url` (source lines 66–80).  A dict subscript with a
missing key raises `KeyError`; the country lookup (in `base_url`) is
evaluated before the condition lookup (in the return expression). -/
def construct_url (query country condition : String) : Except PyError String :=
  match COUNTRY_DICT.lookup country with
  | none => .error (.keyError country)
  | some suffix =>
    let base_url := "https://www.ebay" ++ suffix ++ "/sch/i.html?_from=R40&_nkw="
    let parsed_query := String.mk (replaceP20 (pyQuote query).data)
    match CONDITION_DICT.lookup condition with
    | none => .error (.keyError condition)
    | some frag => .ok (base_url ++ parsed_query ++ frag)

/-- The result record of `get_item_info`. -/
structure ItemInfo where
  price : ℚ
  shipping : ℚ
  total : ℚ
deriving DecidableEq

/-- The `ValueError` message of `get_item_info`:
`'Condition not supported, please use one of the following: ' +
', '.join(CONDITION_DICT.keys())`. -/
def conditionErrorMsg : String :=
  "Condition not supported, please use one of the following: " ++
    String.intercalate ", " (CONDITION_DICT.map Prod.fst)

/-- `get_item_info` (source lines 36–64).  `item_name` and
`condition_raw` are the two `input()` results; the document fetch is
abstracted by the two raw text lists handed to `_parse_prices`. -/
def get_item_info (item_name condition_raw : String)
    (raw_price_list raw_shipping_list : List String) :
    Except PyError ItemInfo :=
  let condition := pyLower condition_raw
  let country := "us"
  if CONDITION_DICT.lookup condition = none then
    .error (.valueError conditionErrorMsg)
  else
    match construct_url item_name country condition with
    | .error e => .error e
    | .ok _url =>
      let data := parse_prices raw_price_list raw_shipping_list
      let avg_price := pyRound2 (average data.1)
      let avg_shipping := pyRound2 (average data.2)
      .ok ⟨avg_price, avg_shipping, pyRound2 (avg_price + avg_shipping)⟩

/-- Boolean substring test on character lists (`pat` occurs contiguously
in the second list). -/
def isSubstring : List Char → List Char → Bool
  | pat, [] => pat.isEmpty
  | pat, c :: rest => pat.isPrefixOf (c :: rest) || isSubstring pat rest

/-- The URL `_construct_url` yields on the success path, with the error
path mapped to `""` (used to state the per-country URL properties). -/
def urlFor (country : String) : String :=
  match construct_url "widget" country "all" with
  | .ok url => url
  | .error _ => ""

deriving instance DecidableEq for Except

/-! ## Helper lemmas -/

theorem searchNumber_cons_digit (c : Char) (cs : List Char)
    (h : c.isDigit = true) : (searchNumber (c :: cs)).isSome = true := by
  rw [searchNumber]
  simp only [h, if_true]
  split <;> simp

theorem searchNumber_eq_none_iff (l : List Char) :
    searchNumber l = none ↔ ∀ c ∈ l, c.isDigit = false := by
  induction l with
  | nil => simp [searchNumber]
  | cons c cs ih =>
    cases h : c.isDigit with
    | false =>
      rw [searchNumber]
      simp [h, ih]
    | true =>
      have hs := searchNumber_cons_digit c cs h
      constructor
      · intro hn
        rw [hn] at hs
        simp at hs
      · intro hall
        have hc := hall c (by simp)
        rw [h] at hc
        simp at hc

theorem isDigit_commaSwap (c : Char) :
    (if c = ',' then '.' else c).isDigit = c.isDigit := by
  by_cases h : c = ','
  · subst h
    decide
  · simp [h]

theorem commaSwap_of_digit (c : Char) (h : c.isDigit = true) :
    (if c = ',' then '.' else c) = c := by
  by_cases hc : c = ','
  · subst hc
    cases h
  · simp [hc]

theorem takeWhile_append_of_all (p : Char → Bool) (l1 l2 : List Char)
    (h : ∀ c ∈ l1, p c = true) :
    List.takeWhile p (l1 ++ l2) = l1 ++ List.takeWhile p l2 := by
  induction l1 with
  | nil => simp
  | cons a l ih =>
    rw [List.cons_append, List.takeWhile_cons_of_pos (h a (by simp))]
    rw [ih (fun c hc => h c (by simp [hc]))]
    rfl

theorem dropWhile_append_of_all (p : Char → Bool) (l1 l2 : List Char)
    (h : ∀ c ∈ l1, p c = true) :
    List.dropWhile p (l1 ++ l2) = List.dropWhile p l2 := by
  induction l1 with
  | nil => simp
  | cons a l ih =>
    rw [List.cons_append, List.dropWhile_cons_of_pos (h a (by simp))]
    exact ih (fun c hc => h c (by simp [hc]))

theorem searchNumber_nodigit_append (l1 l2 : List Char)
    (h : ∀ c ∈ l1, c.isDigit = false) :
    searchNumber (l1 ++ l2) = searchNumber l2 := by
  induction l1 with
  | nil => rfl
  | cons a l ih =>
    rw [List.cons_append, searchNumber]
    simp only [h a (by simp), Bool.false_eq_true, if_false]
    exact ih (fun c hc => h c (by simp [hc]))

theorem searchNumber_digit_run (d1 d2 d3 : List Char)
    (h1 : d1 ≠ []) (hd1 : ∀ c ∈ d1, c.isDigit = true)
    (hd2 : ∀ c ∈ d2, c.isDigit = true) :
    searchNumber (d1 ++ '.' :: (d2 ++ '.' :: d3)) = some (numValue d1 d2) := by
  cases d1 with
  | nil => exact absurd rfl h1
  | cons a l =>
    have ha : a.isDigit = true := hd1 a (by simp)
    have hl : ∀ c ∈ l, c.isDigit = true := fun c hc => hd1 c (by simp [hc])
    have ht : List.takeWhile Char.isDigit ((a :: l) ++ '.' :: (d2 ++ '.' :: d3))
        = a :: l := by
      rw [takeWhile_append_of_all _ _ _ hd1,
        List.takeWhile_cons_of_neg (by decide), List.append_nil]
    have hd : List.dropWhile Char.isDigit ((a :: l) ++ '.' :: (d2 ++ '.' :: d3))
        = '.' :: (d2 ++ '.' :: d3) := by
      rw [dropWhile_append_of_all _ _ _ hd1,
        List.dropWhile_cons_of_neg (by decide)]
    have hfrac : List.takeWhile Char.isDigit (d2 ++ '.' :: d3) = d2 := by
      rw [takeWhile_append_of_all _ _ _ hd2,
        List.takeWhile_cons_of_neg (by decide), List.append_nil]
    rw [List.cons_append, searchNumber]
    simp only [ha, if_true]
    rw [← List.cons_append, ht, hd]
    show some (numValue (a :: l) (List.takeWhile Char.isDigit (d2 ++ '.' :: d3)))
      = some (numValue (a :: l) d2)
    rw [hfrac]

theorem map_commaSwap_of_digits (l : List Char) (h : ∀ c ∈ l, c.isDigit = true) :
    l.map (fun c => if c = ',' then '.' else c) = l := by
  induction l with
  | nil => rfl
  | cons a t ih =>
    rw [List.map_cons, commaSwap_of_digit a (h a (by simp)),
      ih (fun c hc => h c (by simp [hc]))]

end EbayScraper

namespace EbayScraper

/-! ## The claims -/

/-- C1: `_parse_raw_price` replaces every comma with a period and locates
the first contiguous numeric substring; a string with no digit yields
`none` (absent, never zero), and both the "1,234.56" style and the
"1234,56" style yield a parseable decimal. -/
theorem claim_C1 :
    (∀ s : String, parse_raw_price s = none ↔ ∀ c ∈ s.data, c.isDigit = false) ∧
    (parse_raw_price "1,234.56").isSome = true ∧
    parse_raw_price "1234,56" = some (30864 / 25) := by
  refine ⟨fun s => ?_, rfl, ?_⟩
  · unfold parse_raw_price commaToPeriod
    rw [searchNumber_eq_none_iff]
    show (∀ c ∈ s.data.map (fun c => if c = ',' then '.' else c), c.isDigit = false) ↔ _
    constructor
    · intro h c hc
      have hm := h _ (List.mem_map_of_mem _ hc)
      rwa [isDigit_commaSwap] at hm
    · intro h c hc
      rcases List.mem_map.mp hc with ⟨a, ha, rfl⟩
      rw [isDigit_commaSwap]
      exact h a ha
  · have h : parse_raw_price "1234,56" = some (numValue ['1', '2', '3', '4'] ['5', '6']) := rfl
    have h1 : natOfDigits ['1', '2', '3', '4'] = 1234 := by decide
    have h2 : natOfDigits ['5', '6'] = 56 := by decide
    rw [h, numValue, h1, h2]
    norm_num

/-- C1 witness: a digit-free string parses to `none`. -/
theorem claim_C1_witness : parse_raw_price "Free" = none :=
  (claim_C1.1 "Free").mpr (by decide)

/-- C2: in `_parse_prices`, empty raw price texts are dropped before
parsing while empty raw shipping texts are kept and mapped to `0`;
non-empty texts in either list go through `_parse_raw_price` (absent on
no match).  On raw shipping texts `["", "Free", "$5.00"]` this gives
`[0, absent, 5.00]`, whose average is `2.5`. -/
theorem claim_C2 :
    (∀ rp rs : List String,
      (parse_prices rp rs).1 =
        (rp.filter (fun r => decide (r ≠ ""))).map parse_raw_price ∧
      ∀ i : ℕ, (parse_prices rp rs).2[i]? =
        (rs[i]?).map (fun r => if r = "" then some 0 else parse_raw_price r)) ∧
    (parse_prices [] ["", "Free", "$5.00"]).2 = [some 0, none, some 5] ∧
    average (parse_prices [] ["", "Free", "$5.00"]).2 = 5 / 2 := by
  refine ⟨fun rp rs => ⟨rfl, fun i => ?_⟩, ?_, ?_⟩
  · rw [parse_prices]
    exact List.getElem?_map (fun r => if r = "" then some 0 else parse_raw_price r) rs i
  · have h : (parse_prices [] ["", "Free", "$5.00"]).2 =
        [some 0, none, some (numValue ['5'] ['0', '0'])] := rfl
    have h5 : numValue ['5'] ['0', '0'] = 5 := by
      rw [numValue]
      have h1 : natOfDigits ['5'] = 5 := by decide
      have h2 : natOfDigits ['0', '0'] = 0 := by decide
      rw [h1, h2]
      norm_num
    rw [h, h5]
  · have h : average (parse_prices [] ["", "Free", "$5.00"]).2 =
        List.sum [(0 : ℚ), numValue ['5'] ['0', '0']] / (2 : ℕ) := rfl
    have h1 : natOfDigits ['5'] = 5 := by decide
    have h2 : natOfDigits ['0', '0'] = 0 := by decide
    rw [h, numValue, h1, h2]
    norm_num

/-- C3: `_average` filters out the absent entries; if at least one valid
entry remains it returns their sum divided by their count, and otherwise
(including the empty input list) it returns `0`. -/
theorem claim_C3 :
    (∀ l : List (Option ℚ),
      average l =
        if l.filterMap id = [] then 0
        else (l.filterMap id).sum / ((l.filterMap id).length : ℚ)) ∧
    average [] = 0 ∧
    average [none, none] = 0 := by
  refine ⟨fun l => ?_, rfl, rfl⟩
  unfold average
  by_cases hl : l = []
  · subst hl
    simp
  · rw [if_pos hl]
    by_cases hv : l.filterMap id = []
    · simp [hv]
    · simp [hv]

/-- C4: the result record of `get_item_info` has the average of the
parsed prices rounded to two decimals, the average of the parsed
shipping values rounded to two decimals, and as total the sum of the two
already-rounded fields, itself rounded to two decimals. -/
theorem claim_C4 :
    ∀ (item cond : String) (rp rs : List String) (r : ItemInfo),
      get_item_info item cond rp rs = Except.ok r →
      r.price = pyRound2 (average (parse_prices rp rs).1) ∧
      r.shipping = pyRound2 (average (parse_prices rp rs).2) ∧
      r.total = pyRound2 (r.price + r.shipping) := by
  intro item cond rp rs r h
  unfold get_item_info at h
  by_cases hl : CONDITION_DICT.lookup (pyLower cond) = none
  · rw [if_pos hl] at h
    cases h
  · rw [if_neg hl] at h
    obtain ⟨frag, hk⟩ := Option.ne_none_iff_exists'.mp hl
    have hcu : construct_url item "us" (pyLower cond) =
        .ok (("https://www.ebay" ++ ".com" ++ "/sch/i.html?_from=R40&_nkw=") ++
             String.mk (replaceP20 (pyQuote item).data) ++ frag) := by
      unfold construct_url
      rw [show COUNTRY_DICT.lookup "us" = some ".com" from by decide, hk]
    rw [hcu] at h
    cases h
    exact ⟨rfl, rfl, rfl⟩

/-- C4 witness, at empty extraction lists. -/
theorem claim_C4_witness :
    (⟨0, 0, 0⟩ : ItemInfo).price = pyRound2 (average (parse_prices [] []).1) ∧
    (⟨0, 0, 0⟩ : ItemInfo).shipping = pyRound2 (average (parse_prices [] []).2) ∧
    (⟨0, 0, 0⟩ : ItemInfo).total =
      pyRound2 ((⟨0, 0, 0⟩ : ItemInfo).price + (⟨0, 0, 0⟩ : ItemInfo).shipping) :=
  claim_C4 "x" "all" [] [] ⟨0, 0, 0⟩ (by
    have h0 : pyRound2 0 = 0 := by norm_num [pyRound2, roundHalfEven]
    have h : get_item_info "x" "all" [] [] =
        Except.ok ⟨pyRound2 0, pyRound2 0, pyRound2 (pyRound2 0 + pyRound2 0)⟩ := rfl
    simp [h, h0])

/-- C5: for a supported country and condition, `_construct_url` returns
protocol+domain from the country table, the fixed search path, the
percent-encoded query with `%20` rewritten to `+`, and the condition
fragment from the fixed table; `"all"` appends nothing and every other
condition appends exactly its table entry. -/
theorem claim_C5 :
    (∀ query country condition suffix frag : String,
      COUNTRY_DICT.lookup country = some suffix →
      CONDITION_DICT.lookup condition = some frag →
      construct_url query country condition =
        .ok (("https://www.ebay" ++ suffix ++ "/sch/i.html?_from=R40&_nkw=") ++
             String.mk (replaceP20 (pyQuote query).data) ++ frag)) ∧
    CONDITION_DICT.lookup "all" = some "" ∧
    CONDITION_DICT.lookup "new" = some "&LH_ItemCondition=1000" ∧
    CONDITION_DICT.lookup "opened" = some "&LH_ItemCondition=1500" ∧
    CONDITION_DICT.lookup "refurbished" = some "&LH_ItemCondition=2500" ∧
    CONDITION_DICT.lookup "used" = some "&LH_ItemCondition=3000" := by
  refine ⟨?_, by decide, by decide, by decide, by decide, by decide⟩
  intro query country condition suffix frag hc hk
  unfold construct_url
  rw [hc, hk]

/-- C5 witness: a concrete URL with an encoded space and a condition
fragment. -/
theorem claim_C5_witness :
    construct_url "a b" "us" "new" =
      .ok "https://www.ebay.com/sch/i.html?_from=R40&_nkw=a+b&LH_ItemCondition=1000" := by
  have h := claim_C5.1 "a b" "us" "new" ".com" "&LH_ItemCondition=1000"
    (by decide) (by decide)
  rw [h]
  decide

/-- C6: a condition whose lowercasing is not one of the five supported
codes makes `get_item_info` fail with the invalid-input `ValueError`
whose message lists the five valid options, before any URL is built. -/
theorem claim_C6 :
    ∀ (item cond : String) (rp rs : List String),
      pyLower cond ∉ ["all", "new", "opened", "refurbished", "used"] →
      get_item_info item cond rp rs =
        .error (.valueError
          "Condition not supported, please use one of the following: all, new, opened, refurbished, used") := by
  intro item cond rp rs h
  simp only [List.mem_cons, List.mem_singleton, not_or] at h
  obtain ⟨h1, h2, h3, h4, h5, -⟩ := h
  have hl : CONDITION_DICT.lookup (pyLower cond) = none := by
    simp [CONDITION_DICT, List.lookup, beq_eq_false_iff_ne.mpr h1,
      beq_eq_false_iff_ne.mpr h2, beq_eq_false_iff_ne.mpr h3,
      beq_eq_false_iff_ne.mpr h4, beq_eq_false_iff_ne.mpr h5]
  have hmsg : conditionErrorMsg =
      "Condition not supported, please use one of the following: all, new, opened, refurbished, used" := by
    decide
  unfold get_item_info
  rw [if_pos hl, hmsg]

/-- C6 witness: the condition "MINT" (lowercased "mint") is rejected. -/
theorem claim_C6_witness :
    get_item_info "x" "MINT" [] [] =
      .error (.valueError
        "Condition not supported, please use one of the following: all, new, opened, refurbished, used") :=
  claim_C6 "x" "MINT" [] [] (by decide)

/-- C7 counterexample: called on its own with an unsupported condition,
`_construct_url` raises the same raw lookup failure (`KeyError`) as for
an unsupported country — not the invalid-input `ValueError` that lists
the valid options. -/
theorem claim_C7_counterexample :
    construct_url "x" "us" "mint" = .error (.keyError "mint") ∧
    construct_url "x" "us" "mint" ≠ .error (.valueError conditionErrorMsg) ∧
    construct_url "x" "zz" "new" = .error (.keyError "zz") := by
  refine ⟨by decide, by decide, by decide⟩

/-- C7 (amended): `_construct_url`, called on its own, fails with a raw
lookup failure (`KeyError`) naming the condition when the condition code
is not in the fixed set — the same kind of failure an unsupported
country code produces (the country lookup coming first); the
invalid-input error listing the valid options is raised by
`get_item_info` before `_construct_url` is reached. -/
theorem claim_C7 :
    (∀ query country condition : String,
      COUNTRY_DICT.lookup country = none →
      construct_url query country condition = .error (.keyError country)) ∧
    (∀ query country condition suffix : String,
      COUNTRY_DICT.lookup country = some suffix →
      CONDITION_DICT.lookup condition = none →
      construct_url query country condition = .error (.keyError condition)) ∧
    (∀ (item cond : String) (rp rs : List String),
      CONDITION_DICT.lookup (pyLower cond) = none →
      get_item_info item cond rp rs = .error (.valueError conditionErrorMsg)) := by
  refine ⟨?_, ?_, ?_⟩
  · intro query country condition hc
    unfold construct_url
    rw [hc]
  · intro query country condition suffix hc hk
    unfold construct_url
    rw [hc, hk]
  · intro item cond rp rs h
    unfold get_item_info
    rw [if_pos h]

/-- C7 witness: the three failure modes at concrete inputs. -/
theorem claim_C7_witness :
    construct_url "q" "zz" "new" = .error (.keyError "zz") ∧
    construct_url "q" "us" "minty" = .error (.keyError "minty") ∧
    get_item_info "q" "mint" [] [] = .error (.valueError conditionErrorMsg) :=
  ⟨claim_C7.1 "q" "zz" "new" (by decide),
   claim_C7.2.1 "q" "us" "minty" ".com" (by decide) (by decide),
   claim_C7.2.2 "q" "mint" [] [] (by decide)⟩

/-- C8 counterexample: the URL built for country `au` contains `.com`,
which is the domain suffix of country `us` — so it does contain another
country's domain suffix. -/
theorem claim_C8_counterexample :
    construct_url "widget" "au" "all" =
      .ok "https://www.ebay.com.au/sch/i.html?_from=R40&_nkw=widget" ∧
    COUNTRY_DICT.lookup "us" = some ".com" ∧
    isSubstring ".com".data
      "https://www.ebay.com.au/sch/i.html?_from=R40&_nkw=widget".data = true ∧
    "us" ≠ "au" := by
  refine ⟨by decide, by decide, by decide, by decide⟩

/-- C8 (amended): for every supported country code, the URL built by
`_construct_url` (query `"widget"`, condition `"all"`) contains that
country's domain suffix from the fixed table, and contains no other
country's domain suffix except those that occur inside its own suffix
(`.com` occurs inside `.com.au`, `.com.hk`, `.com.my`, `.com.sg`). -/
theorem claim_C8 :
    ∀ p ∈ COUNTRY_DICT,
      construct_url "widget" p.1 "all" = .ok (urlFor p.1) ∧
      isSubstring p.2.data (urlFor p.1).data = true ∧
      ∀ q ∈ COUNTRY_DICT,
        isSubstring q.2.data (urlFor p.1).data = true →
        isSubstring q.2.data p.2.data = true := by
  decide

/-- C8 witness: the amended statement at country `au`. -/
theorem claim_C8_witness :
    construct_url "widget" "au" "all" = .ok (urlFor "au") ∧
    isSubstring ".com.au".data (urlFor "au").data = true ∧
    ∀ q ∈ COUNTRY_DICT,
      isSubstring q.2.data (urlFor "au").data = true →
      isSubstring q.2.data ".com.au".data = true :=
  claim_C8 ("au", ".com.au") (by decide)

/-- C9: the average of a single-element list, rounded to two decimals,
equals that element rounded to two decimals. -/
theorem claim_C9 : ∀ x : ℚ, pyRound2 (average [some x]) = pyRound2 x := by
  intro x
  have h : average [some x] = x := by
    unfold average
    simp
  rw [h]

/-- C10: on a price text with a comma thousands separator and a period
decimal point, `_parse_raw_price` stops at the second separator: for a
digit-free head, a digit run `d1`, a comma, a digit run `d2`, a period
and a tail `d3`, it returns the value of `d1.d2` — so `"$1,234.56"`
yields `1.234`, not `1234.56`. -/
theorem claim_C10 :
    (∀ pre d1 d2 d3 : List Char,
      (∀ c ∈ pre, c.isDigit = false) →
      d1 ≠ [] → (∀ c ∈ d1, c.isDigit = true) →
      (∀ c ∈ d2, c.isDigit = true) →
      parse_raw_price (String.mk (pre ++ (d1 ++ ',' :: (d2 ++ '.' :: d3)))) =
        some (numValue d1 d2)) ∧
    parse_raw_price "$1,234.56" = some (617 / 500) ∧
    parse_raw_price "$1,234.56" ≠ some (30864 / 25) := by
  have hv : numValue ['1'] ['2', '3', '4'] = 617 / 500 := by
    have h1 : natOfDigits ['1'] = 1 := by decide
    have h2 : natOfDigits ['2', '3', '4'] = 234 := by decide
    rw [numValue, h1, h2]
    norm_num
  refine ⟨?_, ?_, ?_⟩
  · intro pre d1 d2 d3 hpre h1 hd1 hd2
    unfold parse_raw_price commaToPeriod
    show searchNumber ((pre ++ (d1 ++ ',' :: (d2 ++ '.' :: d3))).map
      (fun c => if c = ',' then '.' else c)) = _
    have hpre' : ∀ c ∈ pre.map (fun c => if c = ',' then '.' else c),
        c.isDigit = false := by
      intro c hc
      rcases List.mem_map.mp hc with ⟨a, ha, rfl⟩
      rw [isDigit_commaSwap]
      exact hpre a ha
    simp only [List.map_append, List.map_cons, map_commaSwap_of_digits d1 hd1,
      map_commaSwap_of_digits d2 hd2, if_pos rfl,
      if_neg (by decide : ¬('.' : Char) = ',')]
    rw [searchNumber_nodigit_append _ _ hpre']
    exact searchNumber_digit_run d1 d2 _ h1 hd1 hd2
  · have h : parse_raw_price "$1,234.56" = some (numValue ['1'] ['2', '3', '4']) := rfl
    rw [h, hv]
  · have h : parse_raw_price "$1,234.56" = some (numValue ['1'] ['2', '3', '4']) := rfl
    rw [h, hv]
    simp only [ne_eq, Option.some.injEq]
    norm_num

/-- C10 witness: the general statement applied to `"$1,234.56"` split
into its pieces. -/
theorem claim_C10_witness :
    parse_raw_price
        (String.mk (['$'] ++ (['1'] ++ ',' :: (['2', '3', '4'] ++ '.' :: ['5', '6'])))) =
      some (numValue ['1'] ['2', '3', '4']) :=
  claim_C10.1 ['$'] ['1'] ['2', '3', '4'] ['5', '6']
    (by decide) (by decide) (by decide) (by decide)

end EbayScraper
